import Mathlib

/-!
Verification of the `perftools` statistical analysis engine of the
olsen repository: `analyze_filetype.py` (selector, stage aggregator)
and `compare_datasets.py` (comparator).  Numeric code is embedded over
exact rationals (Python ints and the float arithmetic that is exact at
every value considered here); `x ** 0.5` is embedded as `Real.sqrt`.
Python exceptions (ZeroDivisionError, TypeError, AttributeError) are
embedded as explicit error values.
-/

/-- A per-photo telemetry record, one element of the `detailed` array of a
perfstats JSON document.  Durations are non-negative integers in
nanoseconds, `FileSize` is in bytes (spec section 3). -/
structure PhotoRecord where
  FilePath : String
  FileSize : Nat
  HashTime : Nat
  MetadataTime : Nat
  ImageDecodeTime : Nat
  ThumbnailTime : Nat
  ColorTime : Nat
  PerceptualHashTime : Nat
  InferenceTime : Nat
  DatabaseTime : Nat
  TotalTime : Nat
  deriving DecidableEq

/-- Bool test that `s` begins with `pat` (character lists). -/
def startsWithL : List Char → List Char → Bool
  | [], _ => true
  | _ :: _, [] => false
  | c :: cs, d :: ds => c == d && startsWithL cs ds

/-- Python `pat in s` for strings: `pat` occurs as a contiguous substring of
`s` (the empty pattern always matches). -/
def containsSub : List Char → List Char → Bool
  | [], pat => startsWithL pat []
  | c :: t, pat => startsWithL pat (c :: t) || containsSub t pat

/-- Python `str.upper()`, ASCII model (paths in the datasets are ASCII). -/
def upperL (s : List Char) : List Char := s.map Char.toUpper

/-- Python `s.endswith(suf)`. -/
def endsWithL (s suf : List Char) : Bool := startsWithL suf.reverse s.reverse

/-- Shallow embedding of `filter_photos` (analyze_filetype.py lines 21-28) at
the types it is documented to take: a string pattern and a boolean mode flag.
Substring mode keeps records whose `FilePath` contains the pattern literally
(case-sensitive); extension mode dot-normalizes the pattern and compares
suffixes after uppercasing both sides.  (`main` in fact passes `args.pattern`
for both parameters; that dynamically typed call is `filter_photos_dyn`.) -/
def filter_photos (detailed : List PhotoRecord) (pattern : String)
    (use_pattern : Bool) : List PhotoRecord :=
  if use_pattern then
    detailed.filter fun p => containsSub p.FilePath.data pattern.data
  else
    let ext := if startsWithL ['.'] pattern.data then pattern else "." ++ pattern
    detailed.filter fun p => endsWithL (upperL p.FilePath.data) (upperL ext.data)

/-- Python `int(x)` on a numeric value: truncation toward zero. -/
def pyTrunc (q : ℚ) : ℤ := if 0 ≤ q then ⌊q⌋ else ⌈q⌉

/-- Python sequence indexing `l[i]` including negative-index wrap-around,
totalised with default 0; an index out of range (IndexError in Python) is not
reachable from the call sites embedded here. -/
def pyIndex (l : List ℚ) (i : ℤ) : ℚ :=
  if 0 ≤ i then l.getD i.toNat 0 else l.getD ((l.length : ℤ) + i).toNat 0

/-- Shallow embedding of `get_percentile` (analyze_filetype.py lines 43-48):
0 on an empty list, else `idx = int(len(sorted_values) * percentile)` and the
element at `min(idx, len(sorted_values) - 1)`.  The percentile argument is an
exact rational; both call sites (0.5 and 0.95) behave identically under float
and exact arithmetic. -/
def get_percentile (sorted_values : List ℚ) (percentile : ℚ) : ℚ :=
  if sorted_values = [] then 0
  else
    pyIndex sorted_values
      (min (pyTrunc ((sorted_values.length : ℚ) * percentile))
        ((sorted_values.length : ℤ) - 1))

/-- Shallow embedding of `coefficient_of_variation` (analyze_filetype.py
lines 31-40): 0 for fewer than two values or zero mean, else
`(variance ** 0.5 / mean) * 100` with population variance (divisor `n`). -/
noncomputable def coefficient_of_variation (values : List ℚ) : ℝ :=
  if values = [] ∨ values.length < 2 then 0
  else
    let mean : ℚ := values.sum / values.length
    if mean = 0 then 0
    else
      let variance : ℚ := (values.map fun v => (v - mean) ^ 2).sum / values.length
      (Real.sqrt (variance : ℝ) / (mean : ℝ)) * 100

/-- Python `sorted` on rational values (ascending, stable). -/
def pysorted (l : List ℚ) : List ℚ := l.insertionSort (· ≤ ·)

/-- The seven stage names of the variability list built at
analyze_filetype.py lines 133-141, in declaration order.  The source omits
the Inference stage there, although the timing table (lines 94-103)
declares eight stages. -/
def stage7Names : List String :=
  ["Hash", "Metadata", "Image Decode", "Thumbnails", "Color Extract",
   "Perceptual Hash", "Database"]

/-- The `variability` list of analyze_filetype.py lines 133-141: stage name
paired with the coefficient of variation of the raw nanosecond values.
Mirrors the source exactly: the Inference stage is absent. -/
noncomputable def variability (photos : List PhotoRecord) : List (String × ℝ) :=
  [("Hash", coefficient_of_variation (photos.map fun p => (p.HashTime : ℚ))),
   ("Metadata", coefficient_of_variation (photos.map fun p => (p.MetadataTime : ℚ))),
   ("Image Decode", coefficient_of_variation (photos.map fun p => (p.ImageDecodeTime : ℚ))),
   ("Thumbnails", coefficient_of_variation (photos.map fun p => (p.ThumbnailTime : ℚ))),
   ("Color Extract", coefficient_of_variation (photos.map fun p => (p.ColorTime : ℚ))),
   ("Perceptual Hash", coefficient_of_variation (photos.map fun p => (p.PerceptualHashTime : ℚ))),
   ("Database", coefficient_of_variation (photos.map fun p => (p.DatabaseTime : ℚ)))]

/-- Comparison used by `sorted(variability, key=lambda x: x[1], reverse=True)`
(analyze_filetype.py line 143): descending by the CV component. -/
def cvGE (a b : String × ℝ) : Prop := b.2 ≤ a.2

noncomputable instance : DecidableRel cvGE :=
  fun a b => inferInstanceAs (Decidable (b.2 ≤ a.2))

instance : IsTotal (String × ℝ) cvGE := ⟨fun a b => le_total b.2 a.2⟩

instance : IsTrans (String × ℝ) cvGE := ⟨fun _ _ _ h1 h2 => le_trans h2 h1⟩

/-- Python's stable descending sort of the variability list.  Insertion sort
with the non-strict descending comparison places an element before all later
elements of equal key, which reproduces the stability of Python's sort with
`reverse=True`. -/
noncomputable def variability_ranking (photos : List PhotoRecord) : List (String × ℝ) :=
  (variability photos).insertionSort cvGE

/-- Declaration-order position of a stage name in the variability list. -/
def stageRank (s : String) : ℕ := stage7Names.indexOf s

/-- Sum of a per-record field over a photo list (the `sum(...)` totals of
analyze_filetype.py lines 64-73). -/
def totalOf (photos : List PhotoRecord) (f : PhotoRecord → ℕ) : ℕ :=
  (photos.map f).sum

/-- Average stage time in milliseconds: `total / n / 1_000_000`
(analyze_filetype.py lines 76-84). -/
def avgMs (photos : List PhotoRecord) (f : PhotoRecord → ℕ) : ℚ :=
  (totalOf photos f : ℚ) / (photos.length : ℚ) / 1000000

/-- Per-record values of a stage converted to milliseconds and sorted
ascending (analyze_filetype.py lines 118-121). -/
def sortedMs (photos : List PhotoRecord) (f : PhotoRecord → ℕ) : List ℚ :=
  pysorted (photos.map fun p => (f p : ℚ) / 1000000)

/-- One row of the distribution table (analyze_filetype.py lines 125-128):
`(l[0], get_percentile(l, 0.5), get_percentile(l, 0.95), l[-1])`. -/
def distRow (l : List ℚ) : ℚ × ℚ × ℚ × ℚ :=
  (pyIndex l 0, get_percentile l (1 / 2), get_percentile l (19 / 20), pyIndex l (-1))

/-- Percentage of total for a stage row (analyze_filetype.py line 108):
guarded against a zero average total. -/
def stagePct (time_ms avg_total : ℚ) : ℚ :=
  if avg_total > 0 then time_ms / avg_total * 100 else 0

/-- Python `a / b` on numbers, which raises ZeroDivisionError when `b == 0`:
embedded as `none` in that case. -/
def pydiv (a b : ℚ) : Option ℚ := if b = 0 then none else some (a / b)

/-- The value object holding every number `analyze_photos` prints
(spec section 3, "Analysis Result"). -/
structure AnalysisResult where
  count : ℕ
  totalSizeMB : ℚ
  avgFileSizeMB : ℚ
  throughput : ℚ
  avgTotal : ℚ
  avgHash : ℚ
  avgMetadata : ℚ
  avgDecode : ℚ
  avgThumbnail : ℚ
  avgColor : ℚ
  avgPhash : ℚ
  avgInference : ℚ
  avgDb : ℚ
  pctRows : List (String × ℚ × ℚ)
  distDecode : ℚ × ℚ × ℚ × ℚ
  distThumb : ℚ × ℚ × ℚ × ℚ
  distColor : ℚ × ℚ × ℚ × ℚ
  distTotal : ℚ × ℚ × ℚ × ℚ
  variabilityRows : List (String × ℝ)
  variabilityRanked : List (String × ℝ)

/-- Everything `analyze_photos` computes after the throughput division
succeeded with value `throughput` (analyze_filetype.py lines 57-144). -/
noncomputable def buildResult (photos : List PhotoRecord) (throughput : ℚ) :
    AnalysisResult :=
  let n := photos.length
  let total_bytes := totalOf photos (·.FileSize)
  let avg_total := avgMs photos (·.TotalTime)
  let avg_hash := avgMs photos (·.HashTime)
  let avg_metadata := avgMs photos (·.MetadataTime)
  let avg_decode := avgMs photos (·.ImageDecodeTime)
  let avg_thumbnail := avgMs photos (·.ThumbnailTime)
  let avg_color := avgMs photos (·.ColorTime)
  let avg_phash := avgMs photos (·.PerceptualHashTime)
  let avg_inference := avgMs photos (·.InferenceTime)
  let avg_db := avgMs photos (·.DatabaseTime)
  let stages : List (String × ℚ) :=
    [("Hash", avg_hash), ("Metadata", avg_metadata), ("Image Decode", avg_decode),
     ("Thumbnails", avg_thumbnail), ("Color Extract", avg_color),
     ("Perceptual Hash", avg_phash), ("Inference", avg_inference),
     ("Database", avg_db)]
  ⟨n, (total_bytes : ℚ) / 1024 / 1024, (total_bytes : ℚ) / (n : ℚ) / 1024 / 1024,
    throughput, avg_total, avg_hash, avg_metadata, avg_decode, avg_thumbnail,
    avg_color, avg_phash, avg_inference, avg_db,
    stages.map fun nk => (nk.1, nk.2, stagePct nk.2 avg_total),
    distRow (sortedMs photos (·.ImageDecodeTime)),
    distRow (sortedMs photos (·.ThumbnailTime)),
    distRow (sortedMs photos (·.ColorTime)),
    distRow (sortedMs photos (·.TotalTime)),
    variability photos,
    variability_ranking photos⟩

/-- Outcome of one `analyze_photos` call: the early "No photos found" return,
a propagated ZeroDivisionError, or the computed report. -/
inductive AnalyzeOutcome where
  | noMatch
  | zeroDivisionError
  | result (r : AnalysisResult)

/-- Shallow embedding of `analyze_photos` (analyze_filetype.py lines 51-144).
An empty input returns the no-match outcome before any statistic is computed.
Otherwise the first fallible operation is the throughput division at line 89,
`(total_bytes/1024/1024) / (total_time/1_000_000_000)`, which raises
ZeroDivisionError when the records' `TotalTime` values sum to 0; every later
ratio is guarded in the source and embedded totally in `buildResult`. -/
noncomputable def analyze_photos (photos : List PhotoRecord) : AnalyzeOutcome :=
  if photos = [] then .noMatch
  else
    match pydiv ((totalOf photos (·.FileSize) : ℚ) / 1024 / 1024)
        ((totalOf photos (·.TotalTime) : ℚ) / 1000000000) with
    | none => .zeroDivisionError
    | some t => .result (buildResult photos t)

/-- The `summary` object of a perfstats JSON document (compare_datasets.py
reads exactly these keys). -/
structure Summary where
  ProcessedPhotos : ℕ
  TotalBytes : ℕ
  AvgThroughputMBps : ℚ
  AvgTotalMs : ℚ
  AvgHashMs : ℚ
  AvgMetadataMs : ℚ
  AvgImageDecodeMs : ℚ
  AvgThumbnailMs : ℚ
  AvgColorMs : ℚ
  AvgPerceptualHashMs : ℚ
  AvgInferenceMs : ℚ
  AvgDatabaseMs : ℚ
  deriving DecidableEq

/-- One row of the percentage-of-total table (compare_datasets.py
lines 48-52). -/
structure PctRow where
  name : String
  smallPct : ℚ
  largePct : ℚ
  delta : ℚ
  deriving DecidableEq

/-- One row of the absolute-timings table (compare_datasets.py
lines 59-67). -/
structure AbsRow where
  name : String
  smallMs : ℚ
  largeMs : ℚ
  delta : ℚ
  pctChange : ℚ
  deriving DecidableEq

/-- Everything `compare_summaries` computes (compare_datasets.py
lines 19-74). -/
structure ComparisonResult where
  pctRows : List PctRow
  absRows : List AbsRow
  totalDelta : ℚ
  totalPctChange : ℚ
  deriving DecidableEq

/-- The `stages` list of compare_datasets.py lines 35-44: display name paired
with the summary key, in declared order. -/
def stagesList : List (String × (Summary → ℚ)) :=
  [("Hash", Summary.AvgHashMs), ("Metadata", Summary.AvgMetadataMs),
   ("Image Decode", Summary.AvgImageDecodeMs),
   ("Thumbnails", Summary.AvgThumbnailMs), ("Color Extract", Summary.AvgColorMs),
   ("Perceptual Hash", Summary.AvgPerceptualHashMs),
   ("Inference", Summary.AvgInferenceMs), ("Database", Summary.AvgDatabaseMs)]

/-- One iteration of the percentage loop (compare_datasets.py lines 48-52):
both divisions by `AvgTotalMs` are unguarded in the source. -/
def pctRowOf (small large : Summary) (nk : String × (Summary → ℚ)) :
    Option PctRow := do
  let sp ← pydiv (nk.2 small) small.AvgTotalMs
  let lp ← pydiv (nk.2 large) large.AvgTotalMs
  some ⟨nk.1, sp * 100, lp * 100, lp * 100 - sp * 100⟩

/-- One iteration of the absolute-timings loop (compare_datasets.py
lines 59-67): the relative change has the explicit `small_ms > 0` guard. -/
def absRowOf (small large : Summary) (nk : String × (Summary → ℚ)) : AbsRow :=
  let small_ms := nk.2 small
  let large_ms := nk.2 large
  ⟨nk.1, small_ms, large_ms, large_ms - small_ms,
    if small_ms > 0 then (large_ms / small_ms - 1) * 100 else 0⟩

/-- Shallow embedding of `compare_summaries` (compare_datasets.py
lines 19-74).  `none` means a ZeroDivisionError escaped: the per-stage
percentage loop runs first, then the absolute table, then the overall
total-time delta whose division at line 73 is unguarded. -/
def compare_summaries (small large : Summary) : Option ComparisonResult := do
  let pctRows ← stagesList.mapM (pctRowOf small large)
  let absRows := stagesList.map (absRowOf small large)
  let ratio ← pydiv large.AvgTotalMs small.AvgTotalMs
  some ⟨pctRows, absRows, large.AvgTotalMs - small.AvgTotalMs, (ratio - 1) * 100⟩

/-- Python exceptions that the embedded entry-point code can raise. -/
inductive PyError where
  | zeroDivision
  | typeError
  | attributeError
  deriving DecidableEq

/-- The runtime value of `args.pattern` in `main` of analyze_filetype.py.
The parser declares both a positional argument named `pattern` (line 164) and
the flag `--pattern` with `action='store_true'` (line 165); argparse gives
them the same destination, so the attribute holds either the pattern string
or the boolean `True`. -/
inductive ArgPattern where
  | str (s : String)
  | bool (b : Bool)
  deriving DecidableEq

/-- Python truthiness of an `args.pattern` value: a string is truthy when
non-empty, a Bool is itself. -/
def truthy : ArgPattern → Bool
  | .str s => !s.isEmpty
  | .bool b => b

/-- `filter_photos` as `main` actually invokes it, with dynamically typed
`pattern` and `use_pattern` (both receive `args.pattern`, line 171).  When
`use_pattern` is truthy, `pattern in p['FilePath']` raises TypeError if
`pattern` is the Bool `True`; in the extension branch `pattern.startswith`
raises AttributeError on a Bool. -/
def filter_photos_dyn (detailed : List PhotoRecord) (pattern use_pattern : ArgPattern) :
    Except PyError (List PhotoRecord) :=
  if truthy use_pattern then
    match pattern with
    | .str s => .ok (detailed.filter fun p => containsSub p.FilePath.data s.data)
    | .bool _ => .error .typeError
  else
    match pattern with
    | .str s =>
      let ext := if startsWithL ['.'] s.data then s else "." ++ s
      .ok (detailed.filter fun p => endsWithL (upperL p.FilePath.data) (upperL ext.data))
    | .bool _ => .error .attributeError

/-- Value of `args.pattern` after `parse_args`, for a command line that puts
the optional flag after the positionals as in the script's own usage examples
(`analyze_filetype.py perfstats.json "L10" --pattern`): the positional string
is stored first and the flag, when present, overwrites it with `True`. -/
def parsed_pattern (pattern_arg : String) (flag : Bool) : ArgPattern :=
  if flag then .bool true else .str pattern_arg

/-- The record selection performed by `main` (analyze_filetype.py
lines 168-171): `filter_photos(data['detailed'], args.pattern, args.pattern)`
with the same `args.pattern` value passed for both parameters. -/
def main_select (detailed : List PhotoRecord) (pattern_arg : String)
    (flag : Bool) : Except PyError (List PhotoRecord) :=
  let a := parsed_pattern pattern_arg flag
  filter_photos_dyn detailed a a

/-- Record with an uppercase-extension path, for the selector tests. -/
def photoDNG : PhotoRecord := ⟨"photo.DNG", 0, 0, 0, 0, 0, 0, 0, 0, 0, 0⟩

/-- Record with a lowercase-extension path, for the selector tests. -/
def photoLower : PhotoRecord := ⟨"photo.dng", 0, 0, 0, 0, 0, 0, 0, 0, 0, 0⟩

/-- Record whose stage and total durations are all zero. -/
def recZero : PhotoRecord := ⟨"a.dng", 0, 0, 0, 0, 0, 0, 0, 0, 0, 0⟩

/-- Record with 2 MiB of data processed in 2 seconds. -/
def recOne : PhotoRecord :=
  ⟨"b.dng", 2097152, 1, 1, 1, 1, 1, 1, 1, 1, 2000000000⟩

/-- Summary whose `AvgTotalMs` is zero. -/
def sumZero : Summary := ⟨0, 0, 0, 0, 0, 0, 0, 0, 0, 0, 0, 0⟩

/-- A well-formed baseline summary. -/
def sumOne : Summary := ⟨1, 1048576, 1, 100, 10, 10, 10, 10, 10, 10, 10, 10⟩

/-- A second well-formed summary. -/
def sumTwo : Summary := ⟨2, 2097152, 2, 200, 20, 15, 30, 5, 20, 20, 20, 20⟩

lemma startsWithL_iff (pat s : List Char) :
    startsWithL pat s = true ↔ ∃ t, s = pat ++ t := by
  induction pat generalizing s with
  | nil => simp [startsWithL]
  | cons c cs ih =>
    cases s with
    | nil => simp [startsWithL]
    | cons d ds =>
      simp only [startsWithL, Bool.and_eq_true, beq_iff_eq, ih, List.cons_append]
      constructor
      · rintro ⟨rfl, t, rfl⟩; exact ⟨t, rfl⟩
      · rintro ⟨t, h⟩
        injection h with h1 h2
        exact ⟨h1.symm, t, h2⟩

lemma endsWithL_iff (s suf : List Char) :
    endsWithL s suf = true ↔ ∃ t, s = t ++ suf := by
  unfold endsWithL
  rw [startsWithL_iff]
  constructor
  · rintro ⟨t, ht⟩
    refine ⟨t.reverse, ?_⟩
    have h2 := congrArg List.reverse ht
    simpa using h2
  · rintro ⟨t, rfl⟩
    exact ⟨t.reverse, by simp⟩

lemma containsSub_iff (s pat : List Char) :
    containsSub s pat = true ↔ ∃ l t, s = l ++ pat ++ t := by
  induction s with
  | nil =>
    simp only [containsSub, startsWithL_iff]
    constructor
    · rintro ⟨t, ht⟩; exact ⟨[], t, by simpa using ht⟩
    · rintro ⟨l, t, h⟩
      rcases List.append_eq_nil.mp h.symm with ⟨h1, h2⟩
      rcases List.append_eq_nil.mp h1 with ⟨_, h3⟩
      exact ⟨t, by simp [h3, h2]⟩
  | cons c cs ih =>
    simp only [containsSub, Bool.or_eq_true, startsWithL_iff, ih]
    constructor
    · rintro (⟨t, ht⟩ | ⟨l, t, ht⟩)
      · exact ⟨[], t, by simpa using ht⟩
      · exact ⟨c :: l, t, by simp [ht, List.append_assoc]⟩
    · rintro ⟨l, t, h⟩
      cases l with
      | nil => exact Or.inl ⟨t, by simpa using h⟩
      | cons x xs =>
        rw [List.cons_append, List.cons_append] at h
        injection h with h1 h2
        exact Or.inr ⟨xs, t, h2⟩

/-- C7: extension-mode selection keeps exactly the records whose `FilePath`
ends, after uppercasing both sides, with the dot-normalized pattern, so that
`"photo.DNG"` matches `"dng"` and `".DNG"` identically; substring-mode
selection keeps exactly the records whose `FilePath` contains the pattern as
a literal, case-sensitive substring (`"dng"` does not match `"photo.DNG"`,
`"DNG"` does). -/
theorem C7_selector_modes :
    (∀ (d : List PhotoRecord) (pattern : String) (p : PhotoRecord),
      (p ∈ filter_photos d pattern false ↔
        p ∈ d ∧ ∃ t, upperL p.FilePath.data =
          t ++ upperL (if startsWithL ['.'] pattern.data then pattern
            else "." ++ pattern).data) ∧
      (p ∈ filter_photos d pattern true ↔
        p ∈ d ∧ ∃ l t, p.FilePath.data = l ++ pattern.data ++ t)) ∧
    filter_photos [photoDNG] "dng" false = [photoDNG] ∧
    filter_photos [photoDNG] ".DNG" false = [photoDNG] ∧
    filter_photos [photoDNG] "dng" true = [] ∧
    filter_photos [photoDNG] "DNG" true = [photoDNG] := by
  refine ⟨fun d pattern p => ⟨?_, ?_⟩, by decide, by decide, by decide, by decide⟩
  · simp [filter_photos, List.mem_filter, endsWithL_iff]
  · simp [filter_photos, List.mem_filter, containsSub_iff]

/-- C2 is false of the code: `main` stores the positional pattern and the
`--pattern` flag in the same `args.pattern` attribute and passes that value as
both `pattern` and `use_pattern`.  Without the flag, a non-empty pattern string
is truthy, so `main` runs SUBSTRING matching (the case-sensitive `".DNG"` does
not select `"photo.dng"`, which extension mode would select); with the flag,
`args.pattern` is `True` and `True in p['FilePath']` raises TypeError. -/
theorem C2_entry_mode_bug :
    main_select [photoLower] ".DNG" false = .ok [] ∧
    filter_photos [photoLower] ".DNG" false = [photoLower] ∧
    main_select [photoLower] "L10" true = .error .typeError :=
  ⟨rfl, by decide, rfl⟩

/-- C10: analyzing an empty record list yields the no-match outcome before
any statistic is computed: no crash, no division by zero. -/
theorem C10_empty_input : analyze_photos [] = .noMatch := rfl

lemma gp_eq_getD (l : List ℚ) (p : ℚ) (hne : l ≠ []) (hp : 0 ≤ p) :
    get_percentile l p =
      l.getD (min ⌊(l.length : ℚ) * p⌋ ((l.length : ℤ) - 1)).toNat 0 := by
  have hq : 0 ≤ (l.length : ℚ) * p := mul_nonneg (by positivity) hp
  have hlen : 0 < l.length := List.length_pos.mpr hne
  have hfl : 0 ≤ ⌊(l.length : ℚ) * p⌋ := Int.floor_nonneg.mpr hq
  have hmin : 0 ≤ min ⌊(l.length : ℚ) * p⌋ ((l.length : ℤ) - 1) :=
    le_min hfl (by omega)
  unfold get_percentile pyIndex pyTrunc
  rw [if_neg hne, if_pos hq, if_pos hmin]

lemma gp_index_lt (l : List ℚ) (p : ℚ) (hne : l ≠ []) :
    (min ⌊(l.length : ℚ) * p⌋ ((l.length : ℤ) - 1)).toNat < l.length := by
  have hlen : 0 < l.length := List.length_pos.mpr hne
  have h1 : min ⌊(l.length : ℚ) * p⌋ ((l.length : ℤ) - 1) ≤ (l.length : ℤ) - 1 :=
    min_le_right _ _
  omega

lemma sorted_getD_mono (l : List ℚ) (hs : l.Sorted (· ≤ ·)) {i j : ℕ}
    (hij : i ≤ j) (hj : j < l.length) : l.getD i 0 ≤ l.getD j 0 := by
  have hi : i < l.length := lt_of_le_of_lt hij hj
  rw [List.getD_eq_getElem l 0 hi, List.getD_eq_getElem l 0 hj]
  exact hs.rel_get_of_le (show (⟨i, hi⟩ : Fin l.length) ≤ ⟨j, hj⟩ from hij)

lemma gp_mono (l : List ℚ) (hs : l.Sorted (· ≤ ·)) (hne : l ≠ []) {p q : ℚ}
    (hp : 0 ≤ p) (hpq : p ≤ q) : get_percentile l p ≤ get_percentile l q := by
  rw [gp_eq_getD l p hne hp, gp_eq_getD l q hne (le_trans hp hpq)]
  refine sorted_getD_mono l hs ?_ (gp_index_lt l q hne)
  have hf : ⌊(l.length : ℚ) * p⌋ ≤ ⌊(l.length : ℚ) * q⌋ :=
    Int.floor_le_floor (mul_le_mul_of_nonneg_left hpq (by positivity))
  omega

lemma gp_head_le (l : List ℚ) (hs : l.Sorted (· ≤ ·)) (hne : l ≠ []) {p : ℚ}
    (hp : 0 ≤ p) : l.getD 0 0 ≤ get_percentile l p := by
  rw [gp_eq_getD l p hne hp]
  exact sorted_getD_mono l hs (Nat.zero_le _) (gp_index_lt l p hne)

lemma gp_le_last (l : List ℚ) (hs : l.Sorted (· ≤ ·)) (hne : l ≠ []) {p : ℚ}
    (hp : 0 ≤ p) : get_percentile l p ≤ l.getD (l.length - 1) 0 := by
  have hlen : 0 < l.length := List.length_pos.mpr hne
  rw [gp_eq_getD l p hne hp]
  refine sorted_getD_mono l hs ?_ (by omega)
  have h1 := gp_index_lt l p hne
  omega

/-- C5: on a non-empty list and percentile in [0,1], `get_percentile` returns
the element at index `floor(n * p)` clamped to `[0, n-1]`; on a sorted list
`p = 0` returns the minimum and `p = 1` the maximum; on `[1..10]`, `p = 0.5`
returns 6 and `p = 0.95` returns 10. -/
theorem C5_percentile_nearest_rank :
    (∀ (l : List ℚ) (p : ℚ), l ≠ [] → 0 ≤ p → p ≤ 1 →
      get_percentile l p =
        l.getD (min ⌊(l.length : ℚ) * p⌋ ((l.length : ℤ) - 1)).toNat 0) ∧
    (∀ l : List ℚ, l ≠ [] → l.Sorted (· ≤ ·) →
      (get_percentile l 0 ∈ l ∧ ∀ x ∈ l, get_percentile l 0 ≤ x) ∧
      (get_percentile l 1 ∈ l ∧ ∀ x ∈ l, x ≤ get_percentile l 1)) ∧
    get_percentile [1, 2, 3, 4, 5, 6, 7, 8, 9, 10] (1 / 2) = 6 ∧
    get_percentile [1, 2, 3, 4, 5, 6, 7, 8, 9, 10] (19 / 20) = 10 := by
  refine ⟨fun l p hne hp _ => gp_eq_getD l p hne hp, fun l hne hs => ?_, ?_, ?_⟩
  · have hlen : 0 < l.length := List.length_pos.mpr hne
    have h0 : get_percentile l 0 = l.getD 0 0 := by
      rw [gp_eq_getD l 0 hne le_rfl]
      congr 1
      have : ⌊(l.length : ℚ) * 0⌋ = 0 := by norm_num
      omega
    have h1 : get_percentile l 1 = l.getD (l.length - 1) 0 := by
      rw [gp_eq_getD l 1 hne zero_le_one]
      congr 1
      have : ⌊(l.length : ℚ) * 1⌋ = (l.length : ℤ) := by norm_num
      omega
    refine ⟨⟨?_, fun x hx => ?_⟩, ⟨?_, fun x hx => ?_⟩⟩
    · rw [h0, List.getD_eq_getElem l 0 hlen]; exact List.getElem_mem _
    · obtain ⟨i, rfl⟩ := List.mem_iff_get.mp hx
      rw [h0, List.get_eq_getElem, ← List.getD_eq_getElem l 0 i.isLt]
      exact sorted_getD_mono l hs (Nat.zero_le _) i.isLt
    · rw [h1, List.getD_eq_getElem l 0 (by omega)]; exact List.getElem_mem _
    · obtain ⟨i, rfl⟩ := List.mem_iff_get.mp hx
      rw [h1, List.get_eq_getElem, ← List.getD_eq_getElem l 0 i.isLt]
      exact sorted_getD_mono l hs (by have := i.isLt; omega) (by omega)
  · norm_num [get_percentile, pyTrunc, pyIndex]
    decide
  · norm_num [get_percentile, pyTrunc, pyIndex]
    decide

/-- C5 witness at a concrete input. -/
theorem C5_witness :
    get_percentile [(3 : ℚ), 7] (1 / 2) =
      [(3 : ℚ), 7].getD (min ⌊(([(3 : ℚ), 7].length : ℕ) : ℚ) * (1 / 2)⌋
        ((([(3 : ℚ), 7].length : ℕ) : ℤ) - 1)).toNat 0 :=
  C5_percentile_nearest_rank.1 [3, 7] (1 / 2) (by decide) (by norm_num) (by norm_num)

/-- A min/median/p95/max quadruple is ascending. -/
def chainOK (q : ℚ × ℚ × ℚ × ℚ) : Prop :=
  q.1 ≤ q.2.1 ∧ q.2.1 ≤ q.2.2.1 ∧ q.2.2.1 ≤ q.2.2.2

lemma analyze_result_inv (photos : List PhotoRecord) (r : AnalysisResult)
    (h : analyze_photos photos = .result r) : ∃ t, r = buildResult photos t := by
  unfold analyze_photos at h
  by_cases hph : photos = []
  · rw [if_pos hph] at h
    exact AnalyzeOutcome.noConfusion h
  · rw [if_neg hph] at h
    split at h
    · exact AnalyzeOutcome.noConfusion h
    · injection h with h2
      exact ⟨_, h2.symm⟩

lemma sortedMs_sorted (photos : List PhotoRecord) (f : PhotoRecord → ℕ) :
    (sortedMs photos f).Sorted (· ≤ ·) :=
  List.sorted_insertionSort _ _

lemma sortedMs_ne_nil (photos : List PhotoRecord) (hne : photos ≠ [])
    (f : PhotoRecord → ℕ) : sortedMs photos f ≠ [] := by
  have hlen : (sortedMs photos f).length = photos.length := by
    simp [sortedMs, pysorted]
  intro h
  rw [h] at hlen
  exact hne (List.length_eq_zero.mp hlen.symm)

lemma distRow_chain (photos : List PhotoRecord) (hne : photos ≠ [])
    (f : PhotoRecord → ℕ) : chainOK (distRow (sortedMs photos f)) := by
  have hs := sortedMs_sorted photos f
  have hlne := sortedMs_ne_nil photos hne f
  have hlen : 0 < (sortedMs photos f).length := List.length_pos.mpr hlne
  have h0 : pyIndex (sortedMs photos f) 0 = (sortedMs photos f).getD 0 0 := by
    simp [pyIndex]
  have hm : pyIndex (sortedMs photos f) (-1) =
      (sortedMs photos f).getD ((sortedMs photos f).length - 1) 0 := by
    unfold pyIndex
    rw [if_neg (by norm_num)]
    congr 1
    omega
  unfold chainOK distRow
  dsimp only
  refine ⟨?_, ?_, ?_⟩
  · rw [h0]
    exact gp_head_le _ hs hlne (by norm_num)
  · exact gp_mono _ hs hlne (by norm_num) (by norm_num)
  · rw [hm]
    exact gp_le_last _ hs hlne (by norm_num)

/-- C9: whenever the analysis produces a report, each distribution row
satisfies `min ≤ median ≤ p95 ≤ max`, and the percentile function is monotone
in the percentile over a sorted value list. -/
theorem C9_distribution_monotone (photos : List PhotoRecord) (hne : photos ≠ []) :
    (∀ r, analyze_photos photos = .result r →
      chainOK r.distDecode ∧ chainOK r.distThumb ∧
      chainOK r.distColor ∧ chainOK r.distTotal) ∧
    (∀ (l : List ℚ) (p q : ℚ), l.Sorted (· ≤ ·) → l ≠ [] →
      0 ≤ p → p ≤ q → q ≤ 1 → get_percentile l p ≤ get_percentile l q) := by
  constructor
  · intro r h
    obtain ⟨t, rfl⟩ := analyze_result_inv photos r h
    have hd : (buildResult photos t).distDecode =
        distRow (sortedMs photos (·.ImageDecodeTime)) := by simp [buildResult]
    have ht : (buildResult photos t).distThumb =
        distRow (sortedMs photos (·.ThumbnailTime)) := by simp [buildResult]
    have hc : (buildResult photos t).distColor =
        distRow (sortedMs photos (·.ColorTime)) := by simp [buildResult]
    have htt : (buildResult photos t).distTotal =
        distRow (sortedMs photos (·.TotalTime)) := by simp [buildResult]
    rw [hd, ht, hc, htt]
    exact ⟨distRow_chain photos hne _, distRow_chain photos hne _,
      distRow_chain photos hne _, distRow_chain photos hne _⟩
  · intro l p q hs hlne hp hpq _
    exact gp_mono l hs hlne hp hpq

/-- C9 witness at a concrete input. -/
theorem C9_witness :
    get_percentile [(2 : ℚ), 5] (1 / 2) ≤ get_percentile [(2 : ℚ), 5] (19 / 20) :=
  (C9_distribution_monotone [photoDNG] (by decide)).2 [2, 5] (1 / 2) (19 / 20)
    (by norm_num [List.sorted_cons]) (by decide) (by norm_num) (by norm_num)
    (by norm_num)

/-- C1 is false of the code as far as the zero-total case goes: the throughput
division at analyze_filetype.py line 89 has no zero guard, so a non-empty
record list whose `TotalTime` values sum to 0 raises ZeroDivisionError; with a
nonzero total the analysis succeeds and reports
`(totalBytes / 1048576) / (totalTime_ns / 1e9)` MB/s. -/
theorem C1_throughput_behavior (photos : List PhotoRecord) (hne : photos ≠ []) :
    (totalOf photos (·.TotalTime) = 0 →
      analyze_photos photos = .zeroDivisionError) ∧
    (totalOf photos (·.TotalTime) ≠ 0 →
      ∃ r, analyze_photos photos = .result r ∧
        r.throughput = ((totalOf photos (·.FileSize) : ℚ) / 1048576) /
          ((totalOf photos (·.TotalTime) : ℚ) / 1000000000)) := by
  constructor
  · intro h0
    unfold analyze_photos
    rw [if_neg hne]
    have hz : ((totalOf photos (·.TotalTime) : ℚ)) / 1000000000 = 0 := by
      rw [h0]; norm_num
    simp [pydiv, hz]
  · intro hnz
    have hd : ((totalOf photos (·.TotalTime) : ℚ)) / 1000000000 ≠ 0 := by
      rw [div_ne_zero_iff]
      exact ⟨by exact_mod_cast hnz, by norm_num⟩
    unfold analyze_photos
    rw [if_neg hne]
    simp only [pydiv, if_neg hd]
    refine ⟨_, rfl, ?_⟩
    show (totalOf photos (·.FileSize) : ℚ) / 1024 / 1024 /
        ((totalOf photos (·.TotalTime) : ℚ) / 1000000000) = _
    rw [div_div (totalOf photos (·.FileSize) : ℚ) 1024 1024]
    norm_num

/-- C1 counterexample: one record with zero `TotalTime` makes `analyze_photos`
raise ZeroDivisionError instead of reporting a zero or skipped throughput. -/
theorem C1_counterexample : analyze_photos [recZero] = .zeroDivisionError := by
  norm_num [analyze_photos, totalOf, recZero, pydiv]

/-- C1 witness at a concrete input with nonzero total time. -/
theorem C1_witness :
    ∃ r, analyze_photos [recOne] = .result r ∧
      r.throughput = ((totalOf [recOne] (·.FileSize) : ℚ) / 1048576) /
        ((totalOf [recOne] (·.TotalTime) : ℚ) / 1000000000) :=
  (C1_throughput_behavior [recOne] (by decide)).2 (by decide)

lemma pairwise_orderedInsert_of {α : Type} (r : α → α → Prop) [DecidableRel r]
    (P : α → α → Prop) (hrp : ∀ a b, ¬r a b → P b a) (x : α) (l : List α)
    (hl : l.Pairwise P) (hx : ∀ y ∈ l, P x y) :
    (l.orderedInsert r x).Pairwise P := by
  induction l with
  | nil => simp [List.orderedInsert]
  | cons y t ih =>
    rw [List.orderedInsert]
    rcases List.pairwise_cons.mp hl with ⟨hyt, ht⟩
    by_cases hr : r x y
    · rw [if_pos hr]
      exact List.Pairwise.cons hx hl
    · rw [if_neg hr]
      refine List.Pairwise.cons ?_
        (ih ht fun z hz => hx z (List.mem_cons_of_mem _ hz))
      intro z hz
      rcases (List.mem_orderedInsert r).mp hz with rfl | hz2
      · exact hrp _ _ hr
      · exact hyt z hz2

lemma pairwise_insertionSort_of {α : Type} (r : α → α → Prop) [DecidableRel r]
    (P : α → α → Prop) (hrp : ∀ a b, ¬r a b → P b a) (l : List α)
    (hl : l.Pairwise P) : (l.insertionSort r).Pairwise P := by
  induction l with
  | nil => exact List.Pairwise.nil
  | cons y t ih =>
    rw [List.insertionSort]
    rcases List.pairwise_cons.mp hl with ⟨hyt, ht⟩
    exact pairwise_orderedInsert_of r P hrp y _ (ih ht)
      fun z hz => hyt z ((List.mem_insertionSort r).mp hz)

lemma cvGE_not_imp {a b : String × ℝ} (h : ¬cvGE a b) : b.2 ≠ a.2 := by
  intro heq
  exact h (le_of_eq heq)

/-- C3 holds only after removing the Inference stage: the variability report
ranks exactly the seven stages of the source's variability list (Hash,
Metadata, Image Decode, Thumbnails, Color Extract, Perceptual Hash, Database)
by CV descending, ties broken by declaration order; the Inference stage is
omitted from that ranking, and the ranking is what the analysis report
carries. -/
theorem C3_variability_ranking (photos : List PhotoRecord) (_hne : photos ≠ []) :
    List.Perm (variability_ranking photos) (variability photos) ∧
    List.Perm ((variability_ranking photos).map Prod.fst) stage7Names ∧
    List.Sorted cvGE (variability_ranking photos) ∧
    (variability_ranking photos).Pairwise
      (fun a b => a.2 = b.2 → stageRank a.1 < stageRank b.1) ∧
    (∀ r, analyze_photos photos = .result r →
      r.variabilityRanked = variability_ranking photos) := by
  have hperm : List.Perm (variability_ranking photos) (variability photos) :=
    List.perm_insertionSort _ _
  have hnames : (variability photos).map Prod.fst = stage7Names := rfl
  refine ⟨hperm, ?_, ?_, ?_, ?_⟩
  · have := hperm.map Prod.fst
    rwa [hnames] at this
  · exact List.sorted_insertionSort _ _
  · have hrank : (variability photos).Pairwise
        (fun a b : String × ℝ => stageRank a.1 < stageRank b.1) := by
      rw [← List.pairwise_map (R := fun s t => stageRank s < stageRank t), hnames]
      decide
    have h2 : (variability photos).Pairwise
        (fun a b => a.2 = b.2 → stageRank a.1 < stageRank b.1) :=
      hrank.imp fun {a b} h (_ : a.2 = b.2) => h
    exact pairwise_insertionSort_of cvGE _
      (fun a b hab heq => absurd heq (cvGE_not_imp hab)) _ h2
  · intro r h
    obtain ⟨t, rfl⟩ := analyze_result_inv photos r h
    simp [buildResult]

/-- C3 counterexample: the Inference stage, although part of the fixed
declared stage set, never appears in the variability ranking. -/
theorem C3_counterexample :
    "Inference" ∉ (variability_ranking [photoDNG]).map Prod.fst := by
  intro hmem
  have hperm := (List.perm_insertionSort cvGE (variability [photoDNG])).map Prod.fst
  have h2 : "Inference" ∈ (variability [photoDNG]).map Prod.fst :=
    hperm.mem_iff.mp hmem
  rw [show (variability [photoDNG]).map Prod.fst = stage7Names from rfl] at h2
  exact absurd h2 (by decide)

/-- C3 witness at a concrete input. -/
theorem C3_witness :
    List.Perm (variability_ranking [photoDNG]) (variability [photoDNG]) :=
  (C3_variability_ranking [photoDNG] (by decide)).1

lemma mapM_eq_map_of_some {A B : Type} (f : A → Option B) (g : A → B)
    (l : List A) (h : ∀ a ∈ l, f a = some (g a)) : l.mapM f = some (l.map g) := by
  induction l with
  | nil => rfl
  | cons a t ih =>
    rw [List.mapM_cons f, h a (List.mem_cons_self a t),
      ih fun b hb => h b (List.mem_cons_of_mem a hb)]
    rfl

lemma compare_summaries_eq (A B : Summary) (hA : A.AvgTotalMs ≠ 0)
    (hB : B.AvgTotalMs ≠ 0) :
    compare_summaries A B = some
      ⟨stagesList.map fun nk =>
          ⟨nk.1, nk.2 A / A.AvgTotalMs * 100, nk.2 B / B.AvgTotalMs * 100,
            nk.2 B / B.AvgTotalMs * 100 - nk.2 A / A.AvgTotalMs * 100⟩,
        stagesList.map (absRowOf A B),
        B.AvgTotalMs - A.AvgTotalMs,
        (B.AvgTotalMs / A.AvgTotalMs - 1) * 100⟩ := by
  have hrow : ∀ nk ∈ stagesList, pctRowOf A B nk = some
      ⟨nk.1, nk.2 A / A.AvgTotalMs * 100, nk.2 B / B.AvgTotalMs * 100,
        nk.2 B / B.AvgTotalMs * 100 - nk.2 A / A.AvgTotalMs * 100⟩ := by
    intro nk _
    simp [pctRowOf, pydiv, hA, hB]
  unfold compare_summaries
  rw [mapM_eq_map_of_some _ _ _ hrow]
  simp [pydiv, hA]

/-- C4 holds for a nonzero baseline but fails at a zero baseline: the overall
total-time relative change is `((B.AvgTotalMs / A.AvgTotalMs) - 1) * 100` when
`A.AvgTotalMs` is nonzero, but when `A.AvgTotalMs = 0` the comparison raises
ZeroDivisionError (already in the per-stage percentage loop, and again at the
unguarded overall division of compare_datasets.py line 73) instead of
reporting 0. -/
theorem C4_total_relative_change (A B : Summary) (hB : B.AvgTotalMs ≠ 0) :
    (A.AvgTotalMs ≠ 0 → ∃ r, compare_summaries A B = some r ∧
      r.totalPctChange = (B.AvgTotalMs / A.AvgTotalMs - 1) * 100 ∧
      r.totalDelta = B.AvgTotalMs - A.AvgTotalMs) ∧
    (A.AvgTotalMs = 0 → compare_summaries A B = none) := by
  constructor
  · intro hA
    exact ⟨_, compare_summaries_eq A B hA hB, rfl, rfl⟩
  · intro h0
    unfold compare_summaries
    have h1 : stagesList.mapM (pctRowOf A B) = none := by
      rw [show stagesList = ("Hash", Summary.AvgHashMs) :: stagesList.tail from rfl,
        List.mapM_cons]
      simp [pctRowOf, pydiv, h0]
    rw [h1]
    rfl

/-- C4 counterexample: a zero-`AvgTotalMs` baseline makes `compare_summaries`
raise instead of reporting a 0 relative change. -/
theorem C4_counterexample : compare_summaries sumZero sumOne = none := rfl

/-- C4 witness at concrete inputs. -/
theorem C4_witness :
    ∃ r, compare_summaries sumOne sumTwo = some r ∧
      r.totalPctChange = (sumTwo.AvgTotalMs / sumOne.AvgTotalMs - 1) * 100 ∧
      r.totalDelta = sumTwo.AvgTotalMs - sumOne.AvgTotalMs :=
  (C4_total_relative_change sumOne sumTwo (by decide)).1 (by decide)

/-- C8: for summaries with nonzero `AvgTotalMs`, the per-stage
percentage-point deltas and absolute millisecond deltas of `compare(A,B)` are
the exact negations of those of `compare(B,A)`. -/
theorem C8_comparator_antisymmetry (A B : Summary) (hA : A.AvgTotalMs ≠ 0)
    (hB : B.AvgTotalMs ≠ 0) :
    ∃ rAB rBA, compare_summaries A B = some rAB ∧
      compare_summaries B A = some rBA ∧
      rAB.pctRows.map PctRow.delta = (rBA.pctRows.map PctRow.delta).map Neg.neg ∧
      rAB.absRows.map AbsRow.delta = (rBA.absRows.map AbsRow.delta).map Neg.neg := by
  refine ⟨_, _, compare_summaries_eq A B hA hB, compare_summaries_eq B A hB hA,
    ?_, ?_⟩
  · simp only [List.map_map]
    refine List.map_congr_left fun nk _ => ?_
    simp only [Function.comp_apply]
    ring
  · simp only [List.map_map]
    refine List.map_congr_left fun nk _ => ?_
    simp only [Function.comp_apply, absRowOf]
    ring

/-- C8 witness at concrete inputs. -/
theorem C8_witness :
    ∃ rAB rBA, compare_summaries sumOne sumTwo = some rAB ∧
      compare_summaries sumTwo sumOne = some rBA ∧
      rAB.pctRows.map PctRow.delta = (rBA.pctRows.map PctRow.delta).map Neg.neg ∧
      rAB.absRows.map AbsRow.delta = (rBA.absRows.map AbsRow.delta).map Neg.neg :=
  C8_comparator_antisymmetry sumOne sumTwo (by decide) (by decide)

/-- C6: the coefficient of variation is `(population std dev / mean) * 100`
with variance divisor `n`, is 0 for fewer than two values or a zero mean, and
evaluates to 0 on `[10,10,10]` and to 100 on `[0,10]`. -/
theorem C6_coefficient_of_variation :
    (∀ values : List ℚ, values.length < 2 → coefficient_of_variation values = 0) ∧
    (∀ values : List ℚ, values.sum / (values.length : ℚ) = 0 →
      coefficient_of_variation values = 0) ∧
    (∀ values : List ℚ, 2 ≤ values.length →
      values.sum / (values.length : ℚ) ≠ 0 →
      coefficient_of_variation values =
        (Real.sqrt
            (((values.map fun v => (v - values.sum / values.length) ^ 2).sum /
              (values.length : ℚ) : ℚ) : ℝ) /
          ((values.sum / (values.length : ℚ) : ℚ) : ℝ)) * 100) ∧
    coefficient_of_variation [10, 10, 10] = 0 ∧
    coefficient_of_variation [0, 10] = 100 := by
  refine ⟨?_, ?_, ?_, ?_, ?_⟩
  · intro values h
    unfold coefficient_of_variation
    rw [if_pos (Or.inr h)]
  · intro values h
    simp [coefficient_of_variation, h]
  · intro values h2 hm
    unfold coefficient_of_variation
    rw [if_neg ?_, if_neg hm]
    push_neg
    exact ⟨fun he => by rw [he] at h2; exact absurd h2 (by norm_num), by omega⟩
  · unfold coefficient_of_variation
    norm_num
  · unfold coefficient_of_variation
    norm_num
    rw [if_neg (by decide : ¬([(0 : ℚ), 10] = []))]
    rw [show (25 : ℝ) = 5 ^ 2 by norm_num, Real.sqrt_sq (by norm_num : (0 : ℝ) ≤ 5)]
    norm_num

/-- C6 witness at a concrete input. -/
theorem C6_witness : coefficient_of_variation [(5 : ℚ)] = 0 :=
  C6_coefficient_of_variation.1 [5] (by decide)
